import Mathlib

/-!
Shallow embedding of the ghostblade tile-grid adventure engine
(src/classes/types.rs, player.rs, level.rs, game.rs) and proofs about
its interaction rules.  Positions are embedded as `Int` pairs (the
source uses `i16`; no claim depends on 16-bit wraparound, and all
positions in play are bounded by the stored map dimensions, at most
255), map dimensions as `Nat` (source `u8`), boss health as `Nat`
(source `u8`, only ever decremented under a positivity guard).
Rendering and message display (the `UI` field) carry no game state and
are omitted.  Level loading performs file system access; functions that
need it are parametrised over an abstract loader.
-/

set_option maxRecDepth 4000

namespace Ghostblade

/-- Terrain/object kind of one grid cell (types.rs `TileType`). -/
inductive TileType where
  | Empty | Wall | Bamboo | Mountain | Water | Volcano | Lava | SnowMountain
  | Axe | WoodLog | Canoe | Sword | Key | Door | DoorOpen | Cottage | Tomb
  | Bomb | Rock | Goal | Hook | HookStart | HookEnd | Link
  | CrystalA | CrystalB | CrystalC | FlameA | FlameB | FlameC | Alembic
  | WindChime | Lantern | DragonSword | Oni | Boss | Princess
deriving DecidableEq

/-- Inventory item kind (types.rs `ItemType`). -/
inductive ItemType where
  | Axe | Sword | Key | Bomb | Hook | WindChime | DragonSword
deriving DecidableEq

/-- Blocking terrain kind (types.rs `BlockingType`). -/
inductive BlockingType where
  | Wall | Bamboo | Mountain | Water | Volcano | Lava | SnowMountain
  | FlameA | FlameB | FlameC | Lantern
deriving DecidableEq

/-- Interactive object kind (types.rs `InteractiveType`). -/
inductive InteractiveType where
  | Item (item : ItemType)
  | WoodLog | Door | Cottage | Rock | HookStart
  | CrystalA | CrystalB | CrystalC
  | Enemy | Oni | Boss
deriving DecidableEq

/-- Collision classification of a candidate position (types.rs `CollisionType`). -/
inductive CollisionType where
  | None
  | Interactive (t : InteractiveType)
  | Blocking (b : BlockingType)
  | Goal
  | Princess
deriving DecidableEq

/-- Grid position (types.rs `Position`, fields `row`/`col` of type `i16`). -/
structure Position where
  row : Int
  col : Int
deriving DecidableEq

/-- One level: grid, enemy positions, spawn point, stored dimensions
(level.rs `Level`; `map_size` is the stored `(rows, cols)` pair). -/
structure Level where
  map : List (List TileType)
  enemies : List Position
  player_start : Position
  map_size : Nat × Nat
deriving DecidableEq

/-- The player: position, optional pending move, ordered inventory
(player.rs `Player`). -/
structure Player where
  pos : Position
  pending_move : Option Position
  inventory : List ItemType
deriving DecidableEq

/-- Game state (game.rs `Game`): level indices, current level, boss health.
The `ui` field of the source carries no game state and is omitted. -/
structure Game where
  current_level : Nat
  max_levels : Nat
  level : Level
  boss_health : Nat
deriving DecidableEq

/-- player.rs `Player::reset_position`: set the position, clear the pending move. -/
def Player.reset_position (pl : Player) (pos : Position) : Player :=
  { pl with pos := pos, pending_move := none }

/-- player.rs `Player::commit_move`: apply the pending move (if any) and clear it. -/
def Player.commit_move (pl : Player) : Player :=
  match pl.pending_move with
  | some new_pos => { pl with pos := new_pos, pending_move := none }
  | none => { pl with pending_move := none }

/-- player.rs `Player::cancel_move`: clear the pending move. -/
def Player.cancel_move (pl : Player) : Player :=
  { pl with pending_move := none }

/-- player.rs `Player::add_item`: push onto the inventory. -/
def Player.add_item (pl : Player) (item : ItemType) : Player :=
  { pl with inventory := pl.inventory ++ [item] }

/-- player.rs `Player::has_item`: inventory membership. -/
def Player.has_item (pl : Player) (item : ItemType) : Bool :=
  pl.inventory.contains item

/-- Remove the first occurrence of an item from a list (player.rs
`Player::remove_item` removes the element at the first matching index). -/
def removeFirst : List ItemType → ItemType → List ItemType
  | [], _ => []
  | x :: xs, item => if x = item then xs else x :: removeFirst xs item

/-- player.rs `Player::remove_item`. -/
def Player.remove_item (pl : Player) (item : ItemType) : Player :=
  { pl with inventory := removeFirst pl.inventory item }

/-- The tile the source reads by direct indexing `map[r][c]`; out-of-range
indices are given the default `Empty` (the source would panic there; every
in-scope access is proved in range where it matters). -/
def tileAtIdx (map : List (List TileType)) (r c : Nat) : TileType :=
  (map.getD r []).getD c TileType.Empty

/-- Direct (unchecked) write `map[r][c] = t` of the source; `List.set` is a
no-op out of range (the source would panic there). -/
def mapWrite (map : List (List TileType)) (r c : Nat) (t : TileType) :
    List (List TileType) :=
  map.set r ((map.getD r []).set c t)

/-- The bounds test of level.rs `set_tile`/`get_tile`: position within the
stored dimensions. -/
def Level.inB (lvl : Level) (pos : Position) : Bool :=
  decide (0 ≤ pos.row) && decide (pos.row < (lvl.map_size.1 : Int)) &&
  decide (0 ≤ pos.col) && decide (pos.col < (lvl.map_size.2 : Int))

/-- level.rs `Level::set_tile`: bounds-checked write, silently ignored
outside the stored dimensions. -/
def Level.set_tile (lvl : Level) (pos : Position) (t : TileType) : Level :=
  if lvl.inB pos then
    { lvl with map := mapWrite lvl.map pos.row.toNat pos.col.toNat t }
  else lvl

/-- level.rs `Level::get_tile`: bounds-checked read, `none` outside the
stored dimensions. -/
def Level.get_tile (lvl : Level) (pos : Position) : Option TileType :=
  if lvl.inB pos then
    some (tileAtIdx lvl.map pos.row.toNat pos.col.toNat)
  else none

/-- The `match` block of game.rs `Game::check_collision` on the tile at the
candidate position: each listed tile kind ends the function with the given
outcome (`return` in the source); the `_ => {}` arm, here `none`, falls
through to the enemy check. -/
def classifyTile : TileType → Option CollisionType
  | TileType.Wall => some (CollisionType.Blocking BlockingType.Wall)
  | TileType.Bamboo => some (CollisionType.Blocking BlockingType.Bamboo)
  | TileType.Mountain => some (CollisionType.Blocking BlockingType.Mountain)
  | TileType.Water => some (CollisionType.Blocking BlockingType.Water)
  | TileType.Volcano => some (CollisionType.Blocking BlockingType.Volcano)
  | TileType.Lava => some (CollisionType.Blocking BlockingType.Lava)
  | TileType.SnowMountain => some (CollisionType.Blocking BlockingType.SnowMountain)
  | TileType.FlameA => some (CollisionType.Blocking BlockingType.FlameA)
  | TileType.FlameB => some (CollisionType.Blocking BlockingType.FlameB)
  | TileType.FlameC => some (CollisionType.Blocking BlockingType.FlameC)
  | TileType.Lantern => some (CollisionType.Blocking BlockingType.Lantern)
  | TileType.Goal => some CollisionType.Goal
  | TileType.Princess => some CollisionType.Princess
  | TileType.Axe => some (CollisionType.Interactive (InteractiveType.Item ItemType.Axe))
  | TileType.Sword => some (CollisionType.Interactive (InteractiveType.Item ItemType.Sword))
  | TileType.Key => some (CollisionType.Interactive (InteractiveType.Item ItemType.Key))
  | TileType.Bomb => some (CollisionType.Interactive (InteractiveType.Item ItemType.Bomb))
  | TileType.Hook => some (CollisionType.Interactive (InteractiveType.Item ItemType.Hook))
  | TileType.WindChime => some (CollisionType.Interactive (InteractiveType.Item ItemType.WindChime))
  | TileType.DragonSword => some (CollisionType.Interactive (InteractiveType.Item ItemType.DragonSword))
  | TileType.WoodLog => some (CollisionType.Interactive InteractiveType.WoodLog)
  | TileType.Door => some (CollisionType.Interactive InteractiveType.Door)
  | TileType.Cottage => some (CollisionType.Interactive InteractiveType.Cottage)
  | TileType.Rock => some (CollisionType.Interactive InteractiveType.Rock)
  | TileType.HookStart => some (CollisionType.Interactive InteractiveType.HookStart)
  | TileType.CrystalA => some (CollisionType.Interactive InteractiveType.CrystalA)
  | TileType.CrystalB => some (CollisionType.Interactive InteractiveType.CrystalB)
  | TileType.CrystalC => some (CollisionType.Interactive InteractiveType.CrystalC)
  | TileType.Oni => some (CollisionType.Interactive InteractiveType.Oni)
  | TileType.Boss => some (CollisionType.Interactive InteractiveType.Boss)
  | _ => none

/-- game.rs `Game::check_collision`: bounds first, then tile dispatch, then
the enemy list, else `None`. -/
def Game.check_collision (g : Game) (pos : Position) : CollisionType :=
  if pos.row < 0 ∨ (g.level.map_size.1 : Int) ≤ pos.row ∨
     pos.col < 0 ∨ (g.level.map_size.2 : Int) ≤ pos.col then
    CollisionType.Blocking BlockingType.Wall
  else
    match classifyTile (tileAtIdx g.level.map pos.row.toNat pos.col.toNat) with
    | some outcome => outcome
    | none =>
      if g.level.enemies.contains pos then
        CollisionType.Interactive InteractiveType.Enemy
      else CollisionType.None

/-- game.rs `Game::find_tile`: first position (row-major over the stored
dimensions) holding the given tile. -/
def Game.find_tile (g : Game) (t : TileType) : Option Position :=
  (List.range g.level.map_size.1).findSome? fun r =>
    (List.range g.level.map_size.2).findSome? fun c =>
      if tileAtIdx g.level.map r c = t then
        some ⟨(r : Int), (c : Int)⟩
      else none

/-- game.rs `Game::has_any_tile`. -/
def Game.has_any_tile (g : Game) (ts : List TileType) : Bool :=
  ts.any fun t => (g.find_tile t).isSome

/-- game.rs `Game::get_player_start`. -/
def Game.get_player_start (g : Game) : Position :=
  g.level.player_start

/-- game.rs `Game::remove_enemy`: retain every enemy different from `pos`. -/
def Game.remove_enemy (g : Game) (pos : Position) : Game :=
  { g with level := { g.level with enemies := g.level.enemies.filter (· ≠ pos) } }

/-- game.rs `Game::handle_item_pickup`: add the item, clear the tile by a
direct (unchecked) map write, commit the move. -/
def Game.handle_item_pickup (g : Game) (pl : Player) (pos : Position)
    (item : ItemType) : Game × Player :=
  let pl1 := pl.add_item item
  let g1 := { g with level := { g.level with
    map := mapWrite g.level.map pos.row.toNat pos.col.toNat TileType.Empty } }
  (g1, pl1.commit_move)

/-- game.rs `Game::handle_wood_log`. -/
def Game.handle_wood_log (g : Game) (pl : Player) (pos : Position) :
    Game × Player :=
  if pl.has_item ItemType.Axe then
    let water_pos : Position := ⟨pos.row, pos.col + 1⟩
    let is_water_to_right := g.level.get_tile water_pos = some TileType.Water
    if is_water_to_right then
      let lvl1 := (g.level.set_tile water_pos TileType.Canoe).set_tile pos TileType.Empty
      ({ g with level := lvl1 }, (pl.remove_item ItemType.Axe).cancel_move)
    else
      ({ g with level := g.level.set_tile pos TileType.Empty },
       (pl.remove_item ItemType.Axe).commit_move)
  else (g, pl.cancel_move)

/-- game.rs `Game::handle_door`. -/
def Game.handle_door (g : Game) (pl : Player) (pos : Position) : Game × Player :=
  if pl.has_item ItemType.Key then
    ({ g with level := g.level.set_tile pos TileType.DoorOpen },
     (pl.remove_item ItemType.Key).cancel_move)
  else (g, pl.cancel_move)

/-- game.rs `Game::handle_cottage`. -/
def Game.handle_cottage (g : Game) (pl : Player) (pos : Position) : Game × Player :=
  ({ g with level := g.level.set_tile pos TileType.Tomb },
   (pl.add_item ItemType.Bomb).cancel_move)

/-- game.rs `Game::handle_rock`. -/
def Game.handle_rock (g : Game) (pl : Player) (pos : Position) : Game × Player :=
  if pl.has_item ItemType.Bomb then
    ({ g with level := g.level.set_tile pos TileType.Empty },
     (pl.remove_item ItemType.Bomb).cancel_move)
  else (g, pl.cancel_move)

/-- The `for col in start_col..=end_col` loop body of game.rs
`Game::handle_hook_start`, unrolled from the left: set `n` consecutive
cells of `row` to `Link` starting at column `a`. -/
def setRowFrom (lvl : Level) (row a : Int) : Nat → Level
  | 0 => lvl
  | n + 1 => setRowFrom (lvl.set_tile ⟨row, a⟩ TileType.Link) row (a + 1) n

/-- The `for row in start_row..=end_row` loop of game.rs
`Game::handle_hook_start`: set `n` consecutive cells of column `c` to
`Link` starting at row `a`. -/
def setColFrom (lvl : Level) (c a : Int) : Nat → Level
  | 0 => lvl
  | n + 1 => setColFrom (lvl.set_tile ⟨a, c⟩ TileType.Link) c (a + 1) n

/-- game.rs `Game::handle_hook_start`. -/
def Game.handle_hook_start (g : Game) (pl : Player) (pos : Position) :
    Game × Player :=
  if pl.has_item ItemType.Hook then
    let g1 :=
      match g.find_tile TileType.HookEnd with
      | some end_pos =>
        let lvl0 := g.level.set_tile pos TileType.Link
        let lvl1 :=
          if pos.row = end_pos.row then
            let start_col := min pos.col end_pos.col
            let end_col := max pos.col end_pos.col
            setRowFrom lvl0 pos.row start_col ((end_col - start_col).toNat + 1)
          else if pos.col = end_pos.col then
            let start_row := min pos.row end_pos.row
            let end_row := max pos.row end_pos.row
            setColFrom lvl0 pos.col start_row ((end_row - start_row).toNat + 1)
          else lvl0
        { g with level := lvl1 }
      | none => g
    (g1, (pl.remove_item ItemType.Hook).cancel_move)
  else (g, pl.cancel_move)

/-- The `match crystal_type` of game.rs `Game::handle_crystal`: the flame
tile paired with each crystal; `none` is the `_ => return` arm. -/
def crystalFlame : TileType → Option TileType
  | TileType.CrystalA => some TileType.FlameA
  | TileType.CrystalB => some TileType.FlameB
  | TileType.CrystalC => some TileType.FlameC
  | _ => none

/-- game.rs `Game::handle_crystal`.  The source reads the crystal type by
direct indexing `map[r][c]` and returns early (no mutation at all) if it is
not one of the three crystals; that branch is unreachable from
`handle_interaction`. -/
def Game.handle_crystal (g : Game) (pl : Player) (pos : Position) :
    Game × Player :=
  let crystal_type := tileAtIdx g.level.map pos.row.toNat pos.col.toNat
  match crystalFlame crystal_type with
  | none => (g, pl)
  | some flame_type =>
    let g1 :=
      match g.find_tile flame_type with
      | some flame_pos => { g with level := g.level.set_tile flame_pos TileType.Empty }
      | none => g
    let g2 := { g1 with level := g1.level.set_tile pos TileType.Alembic }
    let all_flames_removed :=
      !(g2.has_any_tile [TileType.FlameA, TileType.FlameB, TileType.FlameC])
    let pl1 := if all_flames_removed then pl.add_item ItemType.WindChime else pl
    (g2, pl1.cancel_move)

/-- game.rs `Game::handle_oni`. -/
def Game.handle_oni (g : Game) (pl : Player) (pos : Position) : Game × Player :=
  if pl.has_item ItemType.WindChime then
    ({ g with level := g.level.set_tile pos TileType.Empty },
     (((pl.remove_item ItemType.WindChime).add_item ItemType.DragonSword).commit_move))
  else (g, pl.reset_position g.get_player_start)

/-- game.rs `Game::handle_boss`. -/
def Game.handle_boss (g : Game) (pl : Player) (pos : Position) : Game × Player :=
  if pl.has_item ItemType.DragonSword then
    if 0 < g.boss_health then
      let g1 := { g with boss_health := g.boss_health - 1 }
      if g1.boss_health = 0 then
        ({ g1 with level := g1.level.set_tile pos TileType.Empty }, pl.commit_move)
      else
        (g1, pl.reset_position g1.get_player_start)
    else
      (g, pl.reset_position g.get_player_start)
  else (g, pl.reset_position g.get_player_start)

/-- game.rs `Game::handle_enemy`. -/
def Game.handle_enemy (g : Game) (pl : Player) (pos : Position) : Game × Player :=
  if pl.has_item ItemType.Sword then
    (g.remove_enemy pos, (pl.remove_item ItemType.Sword).commit_move)
  else (g, pl.reset_position g.get_player_start)

/-- game.rs `Game::handle_interaction`: dispatch on the classification of
the pending move's target. -/
def Game.handle_interaction (g : Game) (pl : Player) : Game × Player :=
  match pl.pending_move with
  | none => (g, pl)
  | some new_pos =>
    match g.check_collision new_pos with
    | CollisionType.Interactive it =>
      match it with
      | InteractiveType.Item item => g.handle_item_pickup pl new_pos item
      | InteractiveType.WoodLog => g.handle_wood_log pl new_pos
      | InteractiveType.Door => g.handle_door pl new_pos
      | InteractiveType.Cottage => g.handle_cottage pl new_pos
      | InteractiveType.Rock => g.handle_rock pl new_pos
      | InteractiveType.HookStart => g.handle_hook_start pl new_pos
      | InteractiveType.CrystalA => g.handle_crystal pl new_pos
      | InteractiveType.CrystalB => g.handle_crystal pl new_pos
      | InteractiveType.CrystalC => g.handle_crystal pl new_pos
      | InteractiveType.Enemy => g.handle_enemy pl new_pos
      | InteractiveType.Oni => g.handle_oni pl new_pos
      | InteractiveType.Boss => g.handle_boss pl new_pos
    | _ => (g, pl)

/-- The direction table of game.rs `Game::update_enemies`,
`[(0, 1), (0, -1), (1, 0), (-1, 0)]` as `(dy, dx)` pairs. -/
def directions : List (Int × Int) := [(0, 1), (0, -1), (1, 0), (-1, 0)]

/-- The game with the enemy list detached, as produced by the
`std::mem::take(&mut self.level.enemies)` in game.rs `Game::update_enemies`:
during the tick, collisions are checked against this state, whose enemy
list is empty. -/
def Game.detachEnemies (g : Game) : Game :=
  { g with level := { g.level with enemies := [] } }

/-- The candidate cell of one enemy move attempt in game.rs
`Game::update_enemies`: one step in the chosen direction. -/
def enemyCandidate (e : Position) (d : Fin 4) : Position :=
  ⟨e.row + (directions.getD d.val (0, 0)).1,
   e.col + (directions.getD d.val (0, 0)).2⟩

/-- One enemy's update in game.rs `Game::update_enemies`: on a positive
Bernoulli draw, move to the candidate exactly when `check_collision` on
the detached state `gd` returns `None`; otherwise stay. -/
def enemyStep (gd : Game) (c : Bool × Fin 4) (e : Position) : Position :=
  if c.1 then
    if gd.check_collision (enemyCandidate e c.2) = CollisionType.None then
      enemyCandidate e c.2
    else e
  else e

/-- The `for enemy in &mut enemies` loop of game.rs `Game::update_enemies`,
carrying the index into the injected random choices. -/
def updateEnemiesList (gd : Game) (choice : Nat → Bool × Fin 4) :
    Nat → List Position → List Position
  | _, [] => []
  | i, e :: rest => enemyStep gd (choice i) e :: updateEnemiesList gd choice (i + 1) rest

/-- game.rs `Game::update_enemies`, with the random source injected as a
per-enemy choice: a Bernoulli outcome (the source draws with probability
0.8) and a direction index.  The enemy list is detached
(`std::mem::take`) for the duration of the tick, so every collision check
runs against a state whose enemy list is empty. -/
def Game.update_enemies (g : Game) (choice : Nat → Bool × Fin 4) : Game :=
  { g with level := { g.level with
      enemies := updateEnemiesList g.detachEnemies choice 0 g.level.enemies } }

/-- game.rs `Game::advance_level`, parametrised over the level loader
(`Level::load` reads the file system).  The level counter is incremented
unconditionally; the map is replaced only on a successful in-range load. -/
def Game.advance_level (g : Game) (load : Nat → Option Level) : Game × Bool :=
  let g1 := { g with current_level := g.current_level + 1 }
  if g1.current_level ≤ g1.max_levels then
    match load g1.current_level with
    | some new_level => ({ g1 with level := new_level }, true)
    | none => (g1, false)
  else (g1, false)

/-- The grid invariant stated by the spec's data model: the stored
dimensions agree with the decoded grid (every row has length `cols`,
and there are `rows` rows). -/
def Level.WF (lvl : Level) : Prop :=
  lvl.map.length = lvl.map_size.1 ∧ ∀ row ∈ lvl.map, row.length = lvl.map_size.2

instance (lvl : Level) : Decidable lvl.WF :=
  inferInstanceAs (Decidable (lvl.map.length = lvl.map_size.1 ∧
    ∀ row ∈ lvl.map, row.length = lvl.map_size.2))

/-- A two-by-two level whose only hook-end does not share a row or a
column with the hook-start: exercises the unaligned branch of
`handle_hook_start`. -/
def lvlHookU : Level :=
  { map := [[TileType.HookStart, TileType.Empty],
            [TileType.Empty, TileType.HookEnd]],
    enemies := [], player_start := ⟨0, 0⟩, map_size := (2, 2) }

def gHookU : Game :=
  { current_level := 1, max_levels := 10, level := lvlHookU, boss_health := 3 }

def plHookU : Player :=
  { pos := ⟨1, 0⟩, pending_move := some ⟨0, 0⟩, inventory := [ItemType.Hook] }

/-- A one-row level with an aligned hook-start/hook-end pair. -/
def lvlHookA : Level :=
  { map := [[TileType.HookStart, TileType.Empty, TileType.Water, TileType.HookEnd]],
    enemies := [], player_start := ⟨0, 0⟩, map_size := (1, 4) }

def gHookA : Game :=
  { current_level := 1, max_levels := 10, level := lvlHookA, boss_health := 3 }

/-- The canonical three crystal/flame pair puzzle of the spec's test list. -/
def lvlCrystal : Level :=
  { map := [[TileType.CrystalA, TileType.CrystalB, TileType.CrystalC],
            [TileType.FlameA, TileType.FlameB, TileType.FlameC]],
    enemies := [], player_start := ⟨0, 0⟩, map_size := (2, 3) }

def gCrystal : Game :=
  { current_level := 1, max_levels := 10, level := lvlCrystal, boss_health := 3 }

def plCrystal : Player :=
  { pos := ⟨1, 1⟩, pending_move := some ⟨0, 0⟩, inventory := [] }

/-- First crystal interaction of the three-pair puzzle (crystal A). -/
def crystalRun1 : Game × Player := gCrystal.handle_crystal plCrystal ⟨0, 0⟩

/-- Second crystal interaction of the three-pair puzzle (crystal B). -/
def crystalRun2 : Game × Player := crystalRun1.1.handle_crystal crystalRun1.2 ⟨0, 1⟩

/-- Third crystal interaction of the three-pair puzzle (crystal C). -/
def crystalRun3 : Game × Player := crystalRun2.1.handle_crystal crystalRun2.2 ⟨0, 2⟩

/-- A one-row level with a boss next to the spawn cell. -/
def lvlBoss : Level :=
  { map := [[TileType.Empty, TileType.Boss]],
    enemies := [], player_start := ⟨0, 0⟩, map_size := (1, 2) }

def gBoss : Game :=
  { current_level := 1, max_levels := 10, level := lvlBoss, boss_health := 3 }

def plBoss : Player :=
  { pos := ⟨0, 0⟩, pending_move := some ⟨0, 1⟩,
    inventory := [ItemType.DragonSword] }

/-- A one-row level with a wood log and water to its right. -/
def lvlLog : Level :=
  { map := [[TileType.Empty, TileType.WoodLog, TileType.Water]],
    enemies := [], player_start := ⟨0, 0⟩, map_size := (1, 3) }

def gLog : Game :=
  { current_level := 1, max_levels := 10, level := lvlLog, boss_health := 3 }

def plLog : Player :=
  { pos := ⟨0, 0⟩, pending_move := some ⟨0, 1⟩, inventory := [ItemType.Axe] }

/-- A one-row level with a wood log and no water to its right. -/
def lvlLogDry : Level :=
  { map := [[TileType.Empty, TileType.WoodLog, TileType.Empty]],
    enemies := [], player_start := ⟨0, 0⟩, map_size := (1, 3) }

def gLogDry : Game :=
  { current_level := 1, max_levels := 10, level := lvlLogDry, boss_health := 3 }

/-- A one-row level with two adjacent enemies on empty ground: exercises
the detached-enemy-list collision checks of `update_enemies`. -/
def lvlEn : Level :=
  { map := [[TileType.Empty, TileType.Empty]],
    enemies := [⟨0, 0⟩, ⟨0, 1⟩], player_start := ⟨0, 0⟩, map_size := (1, 2) }

def gEn : Game :=
  { current_level := 1, max_levels := 10, level := lvlEn, boss_health := 3 }

/-- Every enemy draws a positive Bernoulli outcome and direction index 0,
the step `(0, 1)` one column to the right. -/
def choiceRight : Nat → Bool × Fin 4 := fun _ => (true, (0 : Fin 4))

/-- A game already at the last level: `advance_level` must fail on it. -/
def gLast : Game :=
  { current_level := 1, max_levels := 1, level := lvlBoss, boss_health := 3 }

/-- A loader with no further levels. -/
def loadNone : Nat → Option Level := fun _ => none

/-- A loader that always produces the enemy level. -/
def loadEn : Nat → Option Level := fun _ => some lvlEn

/-- A game below the last level, for the successful branch of
`advance_level`. -/
def gMid : Game :=
  { current_level := 1, max_levels := 10, level := lvlBoss, boss_health := 3 }

/-- A one-row level with a key pickup next to the spawn. -/
def lvlKey : Level :=
  { map := [[TileType.Empty, TileType.Key]],
    enemies := [], player_start := ⟨0, 0⟩, map_size := (1, 2) }

def gKey : Game :=
  { current_level := 1, max_levels := 10, level := lvlKey, boss_health := 3 }

def plKey : Player :=
  { pos := ⟨0, 0⟩, pending_move := some ⟨0, 1⟩, inventory := [] }

/-- A small level for the bounds-checked tile accessors. -/
def lvlSmall : Level :=
  { map := [[TileType.Empty, TileType.Wall]],
    enemies := [], player_start := ⟨0, 0⟩, map_size := (1, 2) }

/-- A player holding nothing, with a pending move one cell to the right. -/
def plNone : Player :=
  { pos := ⟨0, 0⟩, pending_move := some ⟨0, 1⟩, inventory := [] }

/-- The boss game one clash before defeat. -/
def gBoss1 : Game :=
  { current_level := 1, max_levels := 10, level := lvlBoss, boss_health := 1 }

theorem getD_set_self {α : Type} (l : List α) (n : Nat) (v d : α)
    (h : n < l.length) : (l.set n v).getD n d = v := by
  induction l generalizing n with
  | nil => simp at h
  | cons x xs ih =>
    cases n with
    | zero => simp
    | succ m => simpa using ih m (by simpa using h)

theorem getD_set_ne {α : Type} (l : List α) (n m : Nat) (v d : α)
    (h : n ≠ m) : (l.set n v).getD m d = l.getD m d := by
  induction l generalizing n m with
  | nil => simp
  | cons x xs ih =>
    cases n with
    | zero =>
      cases m with
      | zero => exact absurd rfl h
      | succ k => simp
    | succ j =>
      cases m with
      | zero => simp
      | succ k => simpa using ih j k (by omega)

theorem getD_mem {α : Type} (l : List α) (n : Nat) (d : α)
    (h : n < l.length) : l.getD n d ∈ l := by
  induction l generalizing n with
  | nil => simp at h
  | cons x xs ih =>
    cases n with
    | zero => simp
    | succ m => exact List.mem_cons_of_mem x (by simpa using ih m (by simpa using h))

@[simp] theorem add_item_pos (pl : Player) (i : ItemType) :
    (pl.add_item i).pos = pl.pos := rfl

@[simp] theorem add_item_pending (pl : Player) (i : ItemType) :
    (pl.add_item i).pending_move = pl.pending_move := rfl

@[simp] theorem remove_item_pos (pl : Player) (i : ItemType) :
    (pl.remove_item i).pos = pl.pos := rfl

@[simp] theorem remove_item_pending (pl : Player) (i : ItemType) :
    (pl.remove_item i).pending_move = pl.pending_move := rfl

@[simp] theorem cancel_move_pos (pl : Player) : pl.cancel_move.pos = pl.pos := rfl

@[simp] theorem cancel_move_pending (pl : Player) :
    pl.cancel_move.pending_move = none := rfl

@[simp] theorem cancel_move_inventory (pl : Player) :
    pl.cancel_move.inventory = pl.inventory := rfl

@[simp] theorem reset_position_pos' (pl : Player) (p : Position) :
    (pl.reset_position p).pos = p := rfl

@[simp] theorem reset_position_pending (pl : Player) (p : Position) :
    (pl.reset_position p).pending_move = none := rfl

@[simp] theorem commit_move_pending (pl : Player) :
    pl.commit_move.pending_move = none := by
  unfold Player.commit_move
  cases pl.pending_move <;> rfl

theorem commit_move_pos_of_pending (pl : Player) (np : Position)
    (h : pl.pending_move = some np) : pl.commit_move.pos = np := by
  unfold Player.commit_move
  rw [h]

@[simp] theorem commit_move_inventory (pl : Player) :
    pl.commit_move.inventory = pl.inventory := by
  unfold Player.commit_move
  cases pl.pending_move <;> rfl

theorem inB_iff (lvl : Level) (pos : Position) :
    lvl.inB pos = true ↔
      0 ≤ pos.row ∧ pos.row < (lvl.map_size.1 : Int) ∧
      0 ≤ pos.col ∧ pos.col < (lvl.map_size.2 : Int) := by
  simp [Level.inB, and_assoc]

@[simp] theorem set_tile_map_size (lvl : Level) (pos : Position) (t : TileType) :
    (lvl.set_tile pos t).map_size = lvl.map_size := by
  unfold Level.set_tile
  split <;> rfl

@[simp] theorem set_tile_enemies (lvl : Level) (pos : Position) (t : TileType) :
    (lvl.set_tile pos t).enemies = lvl.enemies := by
  unfold Level.set_tile
  split <;> rfl

@[simp] theorem set_tile_player_start (lvl : Level) (pos : Position) (t : TileType) :
    (lvl.set_tile pos t).player_start = lvl.player_start := by
  unfold Level.set_tile
  split <;> rfl

@[simp] theorem inB_set_tile (lvl : Level) (pos q : Position) (t : TileType) :
    (lvl.set_tile pos t).inB q = lvl.inB q := by
  unfold Level.inB
  rw [set_tile_map_size]

theorem length_map_set_tile (lvl : Level) (pos : Position) (t : TileType) :
    (lvl.set_tile pos t).map.length = lvl.map.length := by
  unfold Level.set_tile
  split <;> simp [mapWrite]

theorem WF_set_tile {lvl : Level} (h : lvl.WF) (pos : Position) (t : TileType) :
    (lvl.set_tile pos t).WF := by
  obtain ⟨h1, h2⟩ := h
  unfold Level.set_tile
  split
  · refine ⟨by simpa [mapWrite] using h1, ?_⟩
    intro row hrow
    rcases List.mem_or_eq_of_mem_set hrow with hmem | heq
    · exact h2 row hmem
    · subst heq
      rw [List.length_set]
      rename_i hb
      rw [inB_iff] at hb
      apply h2
      exact getD_mem _ _ _ (by omega)
  · exact ⟨h1, h2⟩

theorem get_tile_set_tile (lvl : Level) (hWF : lvl.WF) (pos q : Position)
    (t : TileType) :
    (lvl.set_tile pos t).get_tile q =
      if q = pos ∧ lvl.inB pos = true then some t else lvl.get_tile q := by
  by_cases hp : lvl.inB pos = true
  · by_cases hq : lvl.inB q = true
    · have hmap : (lvl.set_tile pos t).map = mapWrite lvl.map pos.row.toNat pos.col.toNat t := by
        unfold Level.set_tile
        rw [if_pos hp]
      have hqB : (lvl.set_tile pos t).inB q = true := by rw [inB_set_tile]; exact hq
      rw [Level.get_tile, if_pos hqB, Level.get_tile, if_pos hq, hmap]
      rw [inB_iff] at hp hq
      have hrow : pos.row.toNat < lvl.map.length := by rw [hWF.1]; omega
      by_cases hqp : q = pos
      · subst hqp
        rw [if_pos ⟨rfl, by rw [inB_iff]; exact hp⟩]
        unfold tileAtIdx mapWrite
        rw [getD_set_self _ _ _ _ hrow,
            getD_set_self _ _ _ _ (by rw [hWF.2 _ (getD_mem _ _ _ hrow)]; omega)]
      · rw [if_neg (by simp [hqp])]
        unfold tileAtIdx mapWrite
        rcases eq_or_ne q.row.toNat pos.row.toNat with hr | hr
        · have hrint : q.row = pos.row := by omega
          have hcint : q.col ≠ pos.col := by
            intro hc
            exact hqp (by cases q; cases pos; simp_all)
          rw [hr, getD_set_self _ _ _ _ hrow,
              getD_set_ne _ _ _ _ _ (by omega)]
        · rw [getD_set_ne _ _ _ _ _ (Ne.symm hr)]
    · have hqB : (lvl.set_tile pos t).inB q = false := by
        rw [inB_set_tile]
        exact (Bool.not_eq_true _).mp hq
      have hqp : ¬(q = pos ∧ lvl.inB pos = true) := by
        rintro ⟨rfl, _⟩
        exact hq hp
      rw [if_neg hqp, Level.get_tile, Level.get_tile, hqB, if_neg (by simp), if_neg (by simp [hq])]
  · unfold Level.set_tile
    rw [if_neg hp, if_neg (by rintro ⟨_, h⟩; exact hp h)]

theorem WF_setRowFrom {lvl : Level} (h : lvl.WF) (row a : Int) (n : Nat) :
    (setRowFrom lvl row a n).WF := by
  induction n generalizing lvl a with
  | zero => exact h
  | succ m ih => exact ih (WF_set_tile h _ _) _

theorem WF_setColFrom {lvl : Level} (h : lvl.WF) (c a : Int) (n : Nat) :
    (setColFrom lvl c a n).WF := by
  induction n generalizing lvl a with
  | zero => exact h
  | succ m ih => exact ih (WF_set_tile h _ _) _

@[simp] theorem setRowFrom_map_size (lvl : Level) (row a : Int) (n : Nat) :
    (setRowFrom lvl row a n).map_size = lvl.map_size := by
  induction n generalizing lvl a with
  | zero => rfl
  | succ m ih => simp [setRowFrom, ih]

@[simp] theorem setColFrom_map_size (lvl : Level) (c a : Int) (n : Nat) :
    (setColFrom lvl c a n).map_size = lvl.map_size := by
  induction n generalizing lvl a with
  | zero => rfl
  | succ m ih => simp [setColFrom, ih]

theorem get_tile_setRowFrom (lvl : Level) (hWF : lvl.WF) (row a : Int)
    (n : Nat) (q : Position) :
    (setRowFrom lvl row a n).get_tile q =
      if q.row = row ∧ a ≤ q.col ∧ q.col < a + n ∧ lvl.inB q = true then
        some TileType.Link
      else lvl.get_tile q := by
  induction n generalizing lvl a with
  | zero =>
    simp only [setRowFrom]
    rw [if_neg]
    rintro ⟨_, h1, h2, _⟩
    omega
  | succ m ih =>
    simp only [setRowFrom]
    rw [ih _ (WF_set_tile hWF _ _) _,
        get_tile_set_tile lvl hWF ⟨row, a⟩ q, inB_set_tile]
    obtain ⟨qr, qc⟩ := q
    dsimp only
    by_cases hq : lvl.inB ⟨qr, qc⟩ = true
    · by_cases h1 : qr = row
      · subst h1
        by_cases h3 : qc = a
        · subst h3
          rw [if_neg (by rintro ⟨_, hx, _, _⟩; omega),
              if_pos ⟨rfl, hq⟩, if_pos ⟨rfl, le_refl _, by omega, hq⟩]
        · by_cases h2 : a ≤ qc ∧ qc < a + ((m : Int) + 1)
          · rw [if_pos ⟨rfl, by omega, by omega, hq⟩,
                if_pos ⟨rfl, h2.1, by push_cast; omega, hq⟩]
          · rw [if_neg (by rintro ⟨_, hx, hy, _⟩; omega),
                if_neg (by rintro ⟨heq, _⟩; simp at heq; exact h3 heq),
                if_neg (by rintro ⟨_, hx, hy, _⟩; push_cast at hy; exact h2 ⟨hx, by omega⟩)]
      · rw [if_neg (by rintro ⟨hx, _, _, _⟩; exact h1 hx),
            if_neg (by rintro ⟨heq, _⟩; simp at heq; exact h1 heq.1),
            if_neg (by rintro ⟨hx, _, _, _⟩; exact h1 hx)]
    · rw [if_neg (by rintro ⟨_, _, _, hx⟩; exact hq hx),
          if_neg (by rintro ⟨heq, hx⟩
                     refine hq ?_
                     simp at heq
                     obtain ⟨he1, he2⟩ := heq
                     subst he1; subst he2
                     exact hx),
          if_neg (by rintro ⟨_, _, _, hx⟩; exact hq hx)]

theorem get_tile_setColFrom (lvl : Level) (hWF : lvl.WF) (c a : Int)
    (n : Nat) (q : Position) :
    (setColFrom lvl c a n).get_tile q =
      if q.col = c ∧ a ≤ q.row ∧ q.row < a + n ∧ lvl.inB q = true then
        some TileType.Link
      else lvl.get_tile q := by
  induction n generalizing lvl a with
  | zero =>
    simp only [setColFrom]
    rw [if_neg]
    rintro ⟨_, h1, h2, _⟩
    omega
  | succ m ih =>
    simp only [setColFrom]
    rw [ih _ (WF_set_tile hWF _ _) _,
        get_tile_set_tile lvl hWF ⟨a, c⟩ q, inB_set_tile]
    obtain ⟨qr, qc⟩ := q
    dsimp only
    by_cases hq : lvl.inB ⟨qr, qc⟩ = true
    · by_cases h1 : qc = c
      · subst h1
        by_cases h3 : qr = a
        · subst h3
          rw [if_neg (by rintro ⟨_, hx, _, _⟩; omega),
              if_pos ⟨rfl, hq⟩, if_pos ⟨rfl, le_refl _, by omega, hq⟩]
        · by_cases h2 : a ≤ qr ∧ qr < a + ((m : Int) + 1)
          · rw [if_pos ⟨rfl, by omega, by omega, hq⟩,
                if_pos ⟨rfl, h2.1, by push_cast; omega, hq⟩]
          · rw [if_neg (by rintro ⟨_, hx, hy, _⟩; omega),
                if_neg (by rintro ⟨heq, _⟩; simp at heq; exact h3 heq),
                if_neg (by rintro ⟨_, hx, hy, _⟩; push_cast at hy; exact h2 ⟨hx, by omega⟩)]
      · rw [if_neg (by rintro ⟨hx, _, _, _⟩; exact h1 hx),
            if_neg (by rintro ⟨heq, _⟩; simp at heq; exact h1 heq.2),
            if_neg (by rintro ⟨hx, _, _, _⟩; exact h1 hx)]
    · rw [if_neg (by rintro ⟨_, _, _, hx⟩; exact hq hx),
          if_neg (by rintro ⟨heq, hx⟩
                     refine hq ?_
                     simp at heq
                     obtain ⟨he1, he2⟩ := heq
                     subst he1; subst he2
                     exact hx),
          if_neg (by rintro ⟨_, _, _, hx⟩; exact hq hx)]

theorem find_tile_spec (g : Game) (t : TileType) (q : Position)
    (h : g.find_tile t = some q) :
    0 ≤ q.row ∧ q.row < (g.level.map_size.1 : Int) ∧
    0 ≤ q.col ∧ q.col < (g.level.map_size.2 : Int) ∧
    tileAtIdx g.level.map q.row.toNat q.col.toNat = t := by
  unfold Game.find_tile at h
  obtain ⟨r, hr, hr2⟩ := List.exists_of_findSome?_eq_some h
  obtain ⟨c, hc, hc2⟩ := List.exists_of_findSome?_eq_some hr2
  rw [List.mem_range] at hr hc
  by_cases ht : tileAtIdx g.level.map r c = t
  · rw [if_pos ht] at hc2
    obtain rfl : (⟨(r : Int), (c : Int)⟩ : Position) = q := by
      simpa using hc2
    refine ⟨by dsimp only; positivity, by dsimp only; exact_mod_cast hr,
            by dsimp only; positivity, by dsimp only; exact_mod_cast hc, ?_⟩
    simpa using ht
  · rw [if_neg ht] at hc2
    exact absurd hc2 (by simp)

theorem find_tile_inB (g : Game) (t : TileType) (q : Position)
    (h : g.find_tile t = some q) : g.level.inB q = true := by
  obtain ⟨h1, h2, h3, h4, _⟩ := find_tile_spec g t q h
  rw [inB_iff]
  exact ⟨h1, h2, h3, h4⟩

theorem check_collision_inB (g : Game) (p : Position) (it : InteractiveType)
    (h : g.check_collision p = CollisionType.Interactive it) :
    g.level.inB p = true := by
  unfold Game.check_collision at h
  rw [inB_iff]
  split at h
  · exact absurd h (by simp)
  · rename_i hb
    push_neg at hb
    exact ⟨hb.1, hb.2.1, hb.2.2.1, hb.2.2.2⟩

theorem classifyTile_eq_crystalA (t : TileType) :
    classifyTile t = some (CollisionType.Interactive InteractiveType.CrystalA) ↔
      t = TileType.CrystalA := by
  cases t <;> simp [classifyTile]

theorem classifyTile_eq_crystalB (t : TileType) :
    classifyTile t = some (CollisionType.Interactive InteractiveType.CrystalB) ↔
      t = TileType.CrystalB := by
  cases t <;> simp [classifyTile]

theorem classifyTile_eq_crystalC (t : TileType) :
    classifyTile t = some (CollisionType.Interactive InteractiveType.CrystalC) ↔
      t = TileType.CrystalC := by
  cases t <;> simp [classifyTile]

theorem tile_of_interactive_crystalA (g : Game) (p : Position)
    (h : g.check_collision p = CollisionType.Interactive InteractiveType.CrystalA) :
    tileAtIdx g.level.map p.row.toNat p.col.toNat = TileType.CrystalA := by
  unfold Game.check_collision at h
  split at h
  · exact absurd h (by simp)
  · split at h
    · rename_i outcome hct
      rw [← classifyTile_eq_crystalA]
      rw [hct, h]
    · split at h <;> exact absurd h (by simp)

theorem tile_of_interactive_crystalB (g : Game) (p : Position)
    (h : g.check_collision p = CollisionType.Interactive InteractiveType.CrystalB) :
    tileAtIdx g.level.map p.row.toNat p.col.toNat = TileType.CrystalB := by
  unfold Game.check_collision at h
  split at h
  · exact absurd h (by simp)
  · split at h
    · rename_i outcome hct
      rw [← classifyTile_eq_crystalB]
      rw [hct, h]
    · split at h <;> exact absurd h (by simp)

theorem tile_of_interactive_crystalC (g : Game) (p : Position)
    (h : g.check_collision p = CollisionType.Interactive InteractiveType.CrystalC) :
    tileAtIdx g.level.map p.row.toNat p.col.toNat = TileType.CrystalC := by
  unfold Game.check_collision at h
  split at h
  · exact absurd h (by simp)
  · split at h
    · rename_i outcome hct
      rw [← classifyTile_eq_crystalC]
      rw [hct, h]
    · split at h <;> exact absurd h (by simp)

/-- Claim C8: every position whose row or column lies outside the stored
dimensions classifies as `Blocking(Wall)`, for every map content and enemy
list; `check_collision` is a pure function of the state, so it performs no
mutation. -/
theorem classify_out_of_bounds (g : Game) (p : Position)
    (h : p.row < 0 ∨ (g.level.map_size.1 : Int) ≤ p.row ∨
         p.col < 0 ∨ (g.level.map_size.2 : Int) ≤ p.col) :
    g.check_collision p = CollisionType.Blocking BlockingType.Wall := by
  unfold Game.check_collision
  rw [if_pos h]

/-- Witness for claim C8 at the concrete position `(5, 0)` of a one-row
level. -/
theorem classify_out_of_bounds_witness :
    gKey.check_collision ⟨5, 0⟩ = CollisionType.Blocking BlockingType.Wall :=
  classify_out_of_bounds gKey ⟨5, 0⟩ (by decide)

/-- Claim C10: resetting the actor sets its position to the given spawn
point and clears the pending move, and a subsequent commit is a no-op; the
enemy, oni and boss handlers use exactly this reset on a death without the
required item, and the boss handler also on a pushback clash. -/
theorem reset_position_spec (pl : Player) (sp : Position) (g : Game) (p : Position) :
    (pl.reset_position sp).pos = sp ∧
    (pl.reset_position sp).pending_move = none ∧
    (pl.reset_position sp).commit_move = pl.reset_position sp ∧
    (pl.has_item ItemType.Sword = false →
      (g.handle_enemy pl p).2 = pl.reset_position g.get_player_start) ∧
    (pl.has_item ItemType.WindChime = false →
      (g.handle_oni pl p).2 = pl.reset_position g.get_player_start) ∧
    (pl.has_item ItemType.DragonSword = false →
      (g.handle_boss pl p).2 = pl.reset_position g.get_player_start) ∧
    (pl.has_item ItemType.DragonSword = true → 2 ≤ g.boss_health →
      (g.handle_boss pl p).2 = pl.reset_position g.get_player_start) := by
  refine ⟨rfl, rfl, rfl, ?_, ?_, ?_, ?_⟩
  · intro h
    simp [Game.handle_enemy, h]
  · intro h
    simp [Game.handle_oni, h]
  · intro h
    simp [Game.handle_boss, h]
  · intro h hhp
    simp only [Game.handle_boss, h, if_true]
    rw [if_pos (by omega), if_neg (by omega)]
    rfl

/-- Witness for claim C10: a death by enemy without a sword and a boss
pushback clash both produce the reset player. -/
theorem reset_position_spec_witness :
    (gBoss.handle_enemy plNone ⟨0, 1⟩).2 = plNone.reset_position gBoss.get_player_start ∧
    (gBoss.handle_boss plBoss ⟨0, 1⟩).2 = plBoss.reset_position gBoss.get_player_start :=
  ⟨(reset_position_spec plNone ⟨0, 0⟩ gBoss ⟨0, 1⟩).2.2.2.1 (by decide),
   (reset_position_spec plBoss ⟨0, 0⟩ gBoss ⟨0, 1⟩).2.2.2.2.2.2 (by decide) (by decide)⟩

/-- Claim C5, counterexample: `advance_level` past the last level returns
`false` but does not leave the World unchanged — the level counter has
been incremented. -/
theorem advance_level_mutates_on_failure :
    (gLast.advance_level loadNone).2 = false ∧
    (gLast.advance_level loadNone).1 ≠ gLast := by decide

/-- Claim C5 (amended): `advance_level` increments the level counter
unconditionally; when the incremented counter exceeds the maximum or the
load fails it returns `false` and leaves the TileMap (and everything but
the counter) unchanged; otherwise the TileMap is replaced by the loaded
level and `true` is returned. -/
theorem advance_level_spec (g : Game) (load : Nat → Option Level) :
    (g.advance_level load).1.current_level = g.current_level + 1 ∧
    (g.advance_level load).1.max_levels = g.max_levels ∧
    (g.advance_level load).1.boss_health = g.boss_health ∧
    ((g.advance_level load).2 = false → (g.advance_level load).1.level = g.level) ∧
    ((g.advance_level load).2 = true ↔
      g.current_level + 1 ≤ g.max_levels ∧ (load (g.current_level + 1)).isSome) ∧
    (∀ lvl, g.current_level + 1 ≤ g.max_levels →
      load (g.current_level + 1) = some lvl →
      (g.advance_level load).1.level = lvl ∧ (g.advance_level load).2 = true) := by
  unfold Game.advance_level
  by_cases hle : g.current_level + 1 ≤ g.max_levels
  · simp only [hle, if_true]
    cases hld : load (g.current_level + 1) with
    | none => simp [hld]
    | some lvl => simp [hld]
  · simp [hle]

/-- Witness for claim C5 (amended): a successful advance replaces the map,
a failed one keeps it. -/
theorem advance_level_spec_witness :
    (gMid.advance_level loadEn).1.level = lvlEn ∧
    (gMid.advance_level loadEn).2 = true ∧
    (gLast.advance_level loadNone).1.level = gLast.level :=
  ⟨((advance_level_spec gMid loadEn).2.2.2.2.2 lvlEn (by decide) rfl).1,
   ((advance_level_spec gMid loadEn).2.2.2.2.2 lvlEn (by decide) rfl).2,
   (advance_level_spec gLast loadNone).2.2.2.1 (by decide)⟩

/-- Claim C1: with the dragon-sword in inventory, a clash at boss health
`n ≥ 2` decrements the health by one, leaves the map unchanged and resets
the actor to the level spawn; a clash at health 1 brings the health to 0,
clears the boss tile and commits the pending move, so the actor ends on
the former boss cell; without the dragon-sword the boss health does not
change. -/
theorem boss_state_machine (g : Game) (pl : Player) (p : Position)
    (hpend : pl.pending_move = some p) :
    (pl.has_item ItemType.DragonSword = true → 2 ≤ g.boss_health →
      (g.handle_boss pl p).1.boss_health = g.boss_health - 1 ∧
      (g.handle_boss pl p).1.level = g.level ∧
      (g.handle_boss pl p).2.pos = g.level.player_start ∧
      (g.handle_boss pl p).2.pending_move = none) ∧
    (pl.has_item ItemType.DragonSword = true → g.boss_health = 1 →
      (g.handle_boss pl p).1.boss_health = 0 ∧
      (g.handle_boss pl p).1.level = g.level.set_tile p TileType.Empty ∧
      (g.handle_boss pl p).2.pos = p ∧
      (g.handle_boss pl p).2.pending_move = none) ∧
    (pl.has_item ItemType.DragonSword = false →
      (g.handle_boss pl p).1.boss_health = g.boss_health) := by
  refine ⟨?_, ?_, ?_⟩
  · intro h hhp
    simp only [Game.handle_boss, h, if_true]
    rw [if_pos (by omega), if_neg (by omega)]
    exact ⟨rfl, rfl, rfl, rfl⟩
  · intro h hhp
    simp only [Game.handle_boss, h, if_true]
    rw [if_pos (by omega), if_pos (by omega)]
    exact ⟨by simp [hhp], rfl, commit_move_pos_of_pending pl p hpend, commit_move_pending pl⟩
  · intro h
    simp [Game.handle_boss, h]

/-- Witness for claim C1: the three concrete clashes of the boss sequence,
health 3 to 2 with a reset, and health 1 to 0 with the boss tile cleared
and the move committed. -/
theorem boss_state_machine_witness :
    (gBoss.handle_boss plBoss ⟨0, 1⟩).1.boss_health = 2 ∧
    (gBoss.handle_boss plBoss ⟨0, 1⟩).2.pos = gBoss.level.player_start ∧
    (gBoss1.handle_boss plBoss ⟨0, 1⟩).1.boss_health = 0 ∧
    (gBoss1.handle_boss plBoss ⟨0, 1⟩).2.pos = ⟨0, 1⟩ :=
  ⟨((boss_state_machine gBoss plBoss ⟨0, 1⟩ rfl).1 (by decide) (by decide)).1,
   ((boss_state_machine gBoss plBoss ⟨0, 1⟩ rfl).1 (by decide) (by decide)).2.2.1,
   ((boss_state_machine gBoss1 plBoss ⟨0, 1⟩ rfl).2.1 (by decide) (by decide)).1,
   ((boss_state_machine gBoss1 plBoss ⟨0, 1⟩ rfl).2.1 (by decide) (by decide)).2.2.1⟩

/-- Claim C4: a move onto a wood log with an axe and water directly to the
right turns the water into a canoe and the log into empty, removes one
axe, and cancels the move; with an axe and no water to the right it clears
the log, removes one axe, and commits the move; without an axe nothing
changes and the move is cancelled. -/
theorem wood_log_spec (g : Game) (pl : Player) (p : Position)
    (hpend : pl.pending_move = some p) :
    (pl.has_item ItemType.Axe = true →
      g.level.get_tile ⟨p.row, p.col + 1⟩ = some TileType.Water →
      (g.handle_wood_log pl p).1.level =
        (g.level.set_tile ⟨p.row, p.col + 1⟩ TileType.Canoe).set_tile p TileType.Empty ∧
      (g.handle_wood_log pl p).2.pos = pl.pos ∧
      (g.handle_wood_log pl p).2.pending_move = none ∧
      (g.handle_wood_log pl p).2.inventory = removeFirst pl.inventory ItemType.Axe) ∧
    (pl.has_item ItemType.Axe = true →
      g.level.get_tile ⟨p.row, p.col + 1⟩ ≠ some TileType.Water →
      (g.handle_wood_log pl p).1.level = g.level.set_tile p TileType.Empty ∧
      (g.handle_wood_log pl p).2.pos = p ∧
      (g.handle_wood_log pl p).2.pending_move = none ∧
      (g.handle_wood_log pl p).2.inventory = removeFirst pl.inventory ItemType.Axe) ∧
    (pl.has_item ItemType.Axe = false →
      (g.handle_wood_log pl p).1 = g ∧
      (g.handle_wood_log pl p).2.pos = pl.pos ∧
      (g.handle_wood_log pl p).2.pending_move = none ∧
      (g.handle_wood_log pl p).2.inventory = pl.inventory) := by
  refine ⟨?_, ?_, ?_⟩
  · intro h hw
    simp only [Game.handle_wood_log, h, if_true]
    rw [if_pos hw]
    exact ⟨rfl, rfl, rfl, rfl⟩
  · intro h hw
    simp only [Game.handle_wood_log, h, if_true]
    rw [if_neg hw]
    exact ⟨rfl, commit_move_pos_of_pending _ p (by simpa using hpend),
           commit_move_pending _, by rw [commit_move_inventory]; rfl⟩
  · intro h
    simp [Game.handle_wood_log, h]

/-- Witness for claim C4: the three wood-log branches on concrete one-row
levels. -/
theorem wood_log_spec_witness :
    (gLog.handle_wood_log plLog ⟨0, 1⟩).1.level =
      (gLog.level.set_tile ⟨0, 2⟩ TileType.Canoe).set_tile ⟨0, 1⟩ TileType.Empty ∧
    (gLog.handle_wood_log plLog ⟨0, 1⟩).2.pos = plLog.pos ∧
    (gLogDry.handle_wood_log plLog ⟨0, 1⟩).2.pos = ⟨0, 1⟩ ∧
    (gLog.handle_wood_log plNone ⟨0, 1⟩).1 = gLog :=
  ⟨((wood_log_spec gLog plLog ⟨0, 1⟩ rfl).1 (by decide) (by decide)).1,
   ((wood_log_spec gLog plLog ⟨0, 1⟩ rfl).1 (by decide) (by decide)).2.1,
   ((wood_log_spec gLogDry plLog ⟨0, 1⟩ rfl).2.1 (by decide) (by decide)).2.1,
   ((wood_log_spec gLog plNone ⟨0, 1⟩ rfl).2.2 (by decide)).1⟩

/-- Claim C9: under the data model's grid invariant, reads and writes
outside the stored dimensions return absent respectively mutate nothing;
inside the stored dimensions `get_tile` returns the stored tile and
`set_tile` replaces exactly the addressed cell (all other cells, the enemy
list, the spawn point and the dimensions are unchanged); the two index
bounds show every direct access of the source is in range, so neither
operation panics. -/
theorem tile_access_spec (lvl : Level) (p : Position) (t : TileType) :
    (¬(0 ≤ p.row ∧ p.row < (lvl.map_size.1 : Int) ∧
       0 ≤ p.col ∧ p.col < (lvl.map_size.2 : Int)) →
      lvl.get_tile p = none ∧ lvl.set_tile p t = lvl) ∧
    ((0 ≤ p.row ∧ p.row < (lvl.map_size.1 : Int) ∧
      0 ≤ p.col ∧ p.col < (lvl.map_size.2 : Int)) → lvl.WF →
      p.row.toNat < lvl.map.length ∧
      p.col.toNat < (lvl.map.getD p.row.toNat []).length ∧
      lvl.get_tile p = some (tileAtIdx lvl.map p.row.toNat p.col.toNat) ∧
      (lvl.set_tile p t).get_tile p = some t ∧
      (∀ q, q ≠ p → (lvl.set_tile p t).get_tile q = lvl.get_tile q) ∧
      (lvl.set_tile p t).enemies = lvl.enemies ∧
      (lvl.set_tile p t).player_start = lvl.player_start ∧
      (lvl.set_tile p t).map_size = lvl.map_size ∧
      (lvl.set_tile p t).WF) := by
  constructor
  · intro h
    have hB : lvl.inB p = false := by
      rw [Bool.eq_false_iff]
      intro hc
      exact h ((inB_iff lvl p).mp hc)
    exact ⟨by rw [Level.get_tile, hB]; simp, by rw [Level.set_tile, hB]; simp⟩
  · intro h hWF
    have hB : lvl.inB p = true := (inB_iff lvl p).mpr h
    refine ⟨by rw [hWF.1]; omega,
            by rw [hWF.2 _ (getD_mem _ _ _ (by rw [hWF.1]; omega))]; omega,
            by rw [Level.get_tile, hB]; simp, ?_, ?_,
            set_tile_enemies lvl p t, set_tile_player_start lvl p t,
            set_tile_map_size lvl p t, WF_set_tile hWF p t⟩
    · rw [get_tile_set_tile lvl hWF p p t, if_pos ⟨rfl, hB⟩]
    · intro q hq
      rw [get_tile_set_tile lvl hWF p q t, if_neg (by rintro ⟨hc, _⟩; exact hq hc)]

/-- Witness for claim C9 on a concrete one-row level: an out-of-bounds
read and write, and an in-bounds read and exact write. -/
theorem tile_access_spec_witness :
    lvlSmall.get_tile ⟨5, 7⟩ = none ∧
    lvlSmall.set_tile ⟨5, 7⟩ TileType.Key = lvlSmall ∧
    lvlSmall.get_tile ⟨0, 1⟩ = some TileType.Wall ∧
    (lvlSmall.set_tile ⟨0, 1⟩ TileType.Key).get_tile ⟨0, 1⟩ = some TileType.Key ∧
    (lvlSmall.set_tile ⟨0, 1⟩ TileType.Key).get_tile ⟨0, 0⟩ = lvlSmall.get_tile ⟨0, 0⟩ :=
  ⟨((tile_access_spec lvlSmall ⟨5, 7⟩ TileType.Key).1 (by decide)).1,
   ((tile_access_spec lvlSmall ⟨5, 7⟩ TileType.Key).1 (by decide)).2,
   ((tile_access_spec lvlSmall ⟨0, 1⟩ TileType.Key).2 (by decide) (by decide)).2.2.1,
   ((tile_access_spec lvlSmall ⟨0, 1⟩ TileType.Key).2 (by decide) (by decide)).2.2.2.1,
   ((tile_access_spec lvlSmall ⟨0, 1⟩ TileType.Key).2 (by decide) (by decide)).2.2.2.2.1
     ⟨0, 0⟩ (by decide)⟩

/-- Claim C2, counterexample: on a two-by-two level whose only hook-end
(cell `(1, 1)`) shares neither the row nor the column of the hook-start
target `(0, 0)`, the handler still mutates a map cell — the start tile
itself becomes link-chain — refuting that no map cell is mutated when no
aligned hook-end exists. -/
theorem hook_start_unaligned_counterexample :
    plHookU.has_item ItemType.Hook = true ∧
    (∀ r : Fin 2, ∀ c : Fin 2,
      tileAtIdx gHookU.level.map r.val c.val = TileType.HookEnd →
        r.val = 1 ∧ c.val = 1) ∧
    gHookU.level.get_tile ⟨0, 0⟩ = some TileType.HookStart ∧
    (gHookU.handle_hook_start plHookU ⟨0, 0⟩).1.level.get_tile ⟨0, 0⟩ =
      some TileType.Link := by
  decide

/-- Claim C2 (amended): with a hook in inventory the hook is always
consumed and the move cancelled; if no hook-end exists the state is
untouched; if the first hook-end in row-major order shares the target's
row (or column), every cell of the inclusive straight segment between
them becomes link-chain and all other cells are unchanged; if it shares
neither, only the start tile becomes link-chain. -/
theorem hook_start_spec (g : Game) (pl : Player) (p : Position)
    (hhook : pl.has_item ItemType.Hook = true) (hWF : g.level.WF) :
    (g.handle_hook_start pl p).2.pending_move = none ∧
    (g.handle_hook_start pl p).2.pos = pl.pos ∧
    (g.handle_hook_start pl p).2.inventory = removeFirst pl.inventory ItemType.Hook ∧
    (g.find_tile TileType.HookEnd = none → (g.handle_hook_start pl p).1 = g) ∧
    (∀ ep, g.find_tile TileType.HookEnd = some ep →
      (p.row = ep.row →
        ∀ q : Position,
          (g.handle_hook_start pl p).1.level.get_tile q =
            if q.row = p.row ∧ min p.col ep.col ≤ q.col ∧ q.col ≤ max p.col ep.col ∧
               g.level.inB q = true then some TileType.Link
            else g.level.get_tile q) ∧
      (p.row ≠ ep.row → p.col = ep.col →
        ∀ q : Position,
          (g.handle_hook_start pl p).1.level.get_tile q =
            if q.col = p.col ∧ min p.row ep.row ≤ q.row ∧ q.row ≤ max p.row ep.row ∧
               g.level.inB q = true then some TileType.Link
            else g.level.get_tile q) ∧
      (p.row ≠ ep.row → p.col ≠ ep.col →
        (g.handle_hook_start pl p).1.level = g.level.set_tile p TileType.Link)) := by
  refine ⟨by simp [Game.handle_hook_start, hhook],
          by simp [Game.handle_hook_start, hhook],
          by simp [Game.handle_hook_start, hhook]; rfl,
          ?_, ?_⟩
  · intro hfe
    simp [Game.handle_hook_start, hhook, hfe]
  · intro ep hep
    refine ⟨?_, ?_, ?_⟩
    · intro hrow q
      simp only [Game.handle_hook_start, hhook, if_true, hep]
      rw [if_pos hrow]
      rw [get_tile_setRowFrom _ (WF_set_tile hWF _ _) _ _ _ q, inB_set_tile,
          get_tile_set_tile _ hWF _ q]
      obtain ⟨qr, qc⟩ := q
      obtain ⟨pr, pc⟩ := p
      dsimp only
      by_cases hq : g.level.inB ⟨qr, qc⟩ = true
      · by_cases hseg : qr = pr ∧ min pc ep.col ≤ qc ∧ qc ≤ max pc ep.col
        · rw [if_pos ⟨hseg.1, hseg.2.1, by push_cast; omega, hq⟩,
              if_pos ⟨hseg.1, hseg.2.1, hseg.2.2, hq⟩]
        · rw [if_neg (by rintro ⟨h1, h2, h3, _⟩; push_cast at h3; exact hseg ⟨h1, h2, by omega⟩),
              if_neg (by rintro ⟨heq, _⟩
                         simp at heq
                         exact hseg ⟨heq.1, by omega, by omega⟩),
              if_neg (by rintro ⟨h1, h2, h3, _⟩; exact hseg ⟨h1, h2, h3⟩)]
      · rw [if_neg (by rintro ⟨_, _, _, hx⟩; exact hq hx),
            if_neg (by rintro ⟨heq, hx⟩
                       refine hq ?_
                       simp at heq
                       obtain ⟨h1, h2⟩ := heq
                       subst h1; subst h2
                       exact hx),
            if_neg (by rintro ⟨_, _, _, hx⟩; exact hq hx)]
    · intro hrow hcol q
      simp only [Game.handle_hook_start, hhook, if_true, hep]
      rw [if_neg hrow, if_pos hcol]
      rw [get_tile_setColFrom _ (WF_set_tile hWF _ _) _ _ _ q, inB_set_tile,
          get_tile_set_tile _ hWF _ q]
      obtain ⟨qr, qc⟩ := q
      obtain ⟨pr, pc⟩ := p
      dsimp only
      by_cases hq : g.level.inB ⟨qr, qc⟩ = true
      · by_cases hseg : qc = pc ∧ min pr ep.row ≤ qr ∧ qr ≤ max pr ep.row
        · rw [if_pos ⟨hseg.1, hseg.2.1, by push_cast; omega, hq⟩,
              if_pos ⟨hseg.1, hseg.2.1, hseg.2.2, hq⟩]
        · rw [if_neg (by rintro ⟨h1, h2, h3, _⟩; push_cast at h3; exact hseg ⟨h1, h2, by omega⟩),
              if_neg (by rintro ⟨heq, _⟩
                         simp at heq
                         exact hseg ⟨heq.2, by omega, by omega⟩),
              if_neg (by rintro ⟨h1, h2, h3, _⟩; exact hseg ⟨h1, h2, h3⟩)]
      · rw [if_neg (by rintro ⟨_, _, _, hx⟩; exact hq hx),
            if_neg (by rintro ⟨heq, hx⟩
                       refine hq ?_
                       simp at heq
                       obtain ⟨h1, h2⟩ := heq
                       subst h1; subst h2
                       exact hx),
            if_neg (by rintro ⟨_, _, _, hx⟩; exact hq hx)]
    · intro hrow hcol
      simp only [Game.handle_hook_start, hhook, if_true, hep]
      rw [if_neg hrow, if_neg hcol]

/-- Witness for claim C2 (amended) on concrete levels: the aligned pair
converts the whole segment (the water cell `(0, 2)` included) and the
hook is consumed. -/
theorem hook_start_spec_witness :
    (gHookA.handle_hook_start plHookU ⟨0, 0⟩).1.level.get_tile ⟨0, 2⟩ =
      some TileType.Link ∧
    (gHookA.handle_hook_start plHookU ⟨0, 0⟩).2.inventory = [] ∧
    (gHookU.handle_hook_start plHookU ⟨0, 0⟩).1.level =
      gHookU.level.set_tile ⟨0, 0⟩ TileType.Link := by
  have hA := hook_start_spec gHookA plHookU ⟨0, 0⟩ (by decide) (by decide)
  have hU := hook_start_spec gHookU plHookU ⟨0, 0⟩ (by decide) (by decide)
  refine ⟨?_, ?_, ?_⟩
  · have h := (hA.2.2.2.2 ⟨0, 3⟩ (by decide)).1 (by decide) ⟨0, 2⟩
    rw [h, if_pos (by decide)]
  · rw [hA.2.2.1]
    decide
  · exact (hU.2.2.2.2 ⟨1, 1⟩ (by decide)).2.2 (by decide) (by decide)

theorem chime_inventory (b : Bool) (pl : Player) :
    ((if !b then pl.add_item ItemType.WindChime else pl).cancel_move).inventory =
      if b then pl.inventory else pl.inventory ++ [ItemType.WindChime] := by
  cases b <;> rfl

set_option maxHeartbeats 1600000 in
/-- Claim C3: a move onto a crystal tile converts the first matching flame
on the map (when present) to empty and the crystal to an alembic, cancels
the move, and grants the wind-chime exactly when no flame of any of the
three kinds remains afterwards — so interactions leaving a flame grant
nothing, and on the canonical three-pair puzzle exactly one wind-chime is
granted over the whole puzzle, by the interaction removing the last
flame, after which no flame remains. -/
theorem crystal_interaction (g : Game) (pl : Player) (p : Position)
    (ct ft : TileType)
    (hpair : (ct = TileType.CrystalA ∧ ft = TileType.FlameA) ∨
             (ct = TileType.CrystalB ∧ ft = TileType.FlameB) ∨
             (ct = TileType.CrystalC ∧ ft = TileType.FlameC))
    (hWF : g.level.WF) (hpB : g.level.inB p = true)
    (htile : tileAtIdx g.level.map p.row.toNat p.col.toNat = ct) :
    (g.handle_crystal pl p).1.level.get_tile p = some TileType.Alembic ∧
    (∀ fp, g.find_tile ft = some fp →
      (g.handle_crystal pl p).1.level.get_tile fp = some TileType.Empty) ∧
    ((g.handle_crystal pl p).2.inventory =
      if (g.handle_crystal pl p).1.has_any_tile
           [TileType.FlameA, TileType.FlameB, TileType.FlameC] then pl.inventory
       else pl.inventory ++ [ItemType.WindChime]) ∧
    (g.handle_crystal pl p).2.pending_move = none ∧
    (g.handle_crystal pl p).2.pos = pl.pos ∧
    (crystalRun1.2.inventory.count ItemType.WindChime = 0 ∧
     crystalRun2.2.inventory.count ItemType.WindChime = 0 ∧
     crystalRun3.2.inventory.count ItemType.WindChime = 1 ∧
     crystalRun3.1.has_any_tile
       [TileType.FlameA, TileType.FlameB, TileType.FlameC] = false) := by
  have hflame : ct ≠ ft := by
    rcases hpair with ⟨hc, hf⟩ | ⟨hc, hf⟩ | ⟨hc, hf⟩ <;> subst hc <;> subst hf <;> decide
  have main :
      (g.handle_crystal pl p).1.level.get_tile p = some TileType.Alembic ∧
      (∀ fp, g.find_tile ft = some fp →
        (g.handle_crystal pl p).1.level.get_tile fp = some TileType.Empty) ∧
      ((g.handle_crystal pl p).2.inventory =
        if (g.handle_crystal pl p).1.has_any_tile
             [TileType.FlameA, TileType.FlameB, TileType.FlameC] then pl.inventory
         else pl.inventory ++ [ItemType.WindChime]) ∧
      (g.handle_crystal pl p).2.pending_move = none ∧
      (g.handle_crystal pl p).2.pos = pl.pos := by
    have hred : ∀ gmid : Game,
        gmid.level.WF → gmid.level.inB p = true →
        ((({ gmid with level := gmid.level.set_tile p TileType.Alembic } : Game)).level.get_tile p
          = some TileType.Alembic) := by
      intro gmid hW hB
      show (gmid.level.set_tile p TileType.Alembic).get_tile p = some TileType.Alembic
      rw [get_tile_set_tile _ hW p p _, if_pos ⟨rfl, hB⟩]
    have hcf : crystalFlame ct = some ft := by
      rcases hpair with ⟨hc, hf⟩ | ⟨hc, hf⟩ | ⟨hc, hf⟩ <;> subst hc <;> subst hf <;> rfl
    · rcases hfind : g.find_tile ft with _ | fp
      case none =>
        simp only [Game.handle_crystal, htile, hcf, hfind]
        refine ⟨hred g hWF hpB, ?_, ?_, rfl, by split <;> rfl⟩
        · intro fp hfp
          exact absurd hfp (by simp)
        · exact chime_inventory _ pl
      case some =>
        simp only [Game.handle_crystal, htile, hcf, hfind]
        have hfp := find_tile_spec g _ fp hfind
        have hfpB : g.level.inB fp = true := find_tile_inB g _ fp hfind
        have hne : fp ≠ p := by
          intro he
          rw [he] at hfp
          rw [htile] at hfp
          exact hflame hfp.2.2.2.2
        have hW1 : (g.level.set_tile fp TileType.Empty).WF := WF_set_tile hWF _ _
        refine ⟨hred { g with level := g.level.set_tile fp TileType.Empty } hW1
                  (by rw [inB_set_tile]; exact hpB), ?_, ?_, rfl, by split <;> rfl⟩
        · intro fp' hfp'
          have heq' : fp' = fp := by simpa using hfp'.symm
          rw [heq']
          show ((g.level.set_tile fp TileType.Empty).set_tile p TileType.Alembic).get_tile fp
            = some TileType.Empty
          rw [get_tile_set_tile _ hW1 p fp _,
              if_neg (by rintro ⟨hc', _⟩; exact hne hc'),
              get_tile_set_tile _ hWF fp fp _, if_pos ⟨rfl, hfpB⟩]
        · exact chime_inventory _ pl
  exact ⟨main.1, main.2.1, main.2.2.1, main.2.2.2.1, main.2.2.2.2, by decide⟩

/-- Witness for claim C3: touching crystal A of the three-pair puzzle
turns its flame cell `(1, 0)` to empty and the crystal cell to an
alembic. -/
theorem crystal_interaction_witness :
    (gCrystal.handle_crystal plCrystal ⟨0, 0⟩).1.level.get_tile ⟨0, 0⟩ =
      some TileType.Alembic ∧
    (gCrystal.handle_crystal plCrystal ⟨0, 0⟩).1.level.get_tile ⟨1, 0⟩ =
      some TileType.Empty :=
  ⟨(crystal_interaction gCrystal plCrystal ⟨0, 0⟩ TileType.CrystalA TileType.FlameA
      (Or.inl ⟨rfl, rfl⟩) (by decide) (by decide) (by decide)).1,
   (crystal_interaction gCrystal plCrystal ⟨0, 0⟩ TileType.CrystalA TileType.FlameA
      (Or.inl ⟨rfl, rfl⟩) (by decide) (by decide) (by decide)).2.1 ⟨1, 0⟩ (by decide)⟩

theorem updateEnemiesList_length (gd : Game) (choice : Nat → Bool × Fin 4) :
    ∀ (l : List Position) (k : Nat),
      (updateEnemiesList gd choice k l).length = l.length := by
  intro l
  induction l with
  | nil => intro k; rfl
  | cons e rest ih =>
    intro k
    simp only [updateEnemiesList, List.length_cons, ih (k + 1)]

theorem updateEnemiesList_getD (gd : Game) (choice : Nat → Bool × Fin 4) :
    ∀ (l : List Position) (k i : Nat) (d : Position), i < l.length →
      (updateEnemiesList gd choice k l).getD i d =
        enemyStep gd (choice (k + i)) (l.getD i d) := by
  intro l
  induction l with
  | nil => intro k i d h; simp at h
  | cons e rest ih =>
    intro k i d h
    cases i with
    | zero => simp [updateEnemiesList]
    | succ j =>
      simp only [updateEnemiesList, List.getD_cons_succ]
      rw [ih (k + 1) j d (by simpa using h)]
      rw [show k + 1 + j = k + (j + 1) by omega]

/-- Claim C6, counterexample: on a one-row empty map with enemies at
`(0, 0)` and `(0, 1)`, the first enemy's attempt at `(0, 1)` is accepted —
it ends on its peer's original cell — although classification of `(0, 1)`
against the original pre-tick enemy list is `Interactive(enemy)`, not
`None`: the tick validates against a state whose enemy list has been
detached, so the claimed acceptance criterion is refuted. -/
theorem update_enemies_stacking :
    gEn.check_collision ⟨0, 1⟩ = CollisionType.Interactive InteractiveType.Enemy ∧
    gEn.level.enemies.getD 0 ⟨9, 9⟩ = ⟨0, 0⟩ ∧
    (gEn.update_enemies choiceRight).level.enemies.getD 0 ⟨9, 9⟩ = ⟨0, 1⟩ := by
  decide

/-- Claim C6 (amended): in every tick each enemy's candidate cell is
accepted exactly when `check_collision` on the state with the enemy list
detached (emptied for the duration of the tick) returns `None` — so an
enemy never enters a blocking or interactive tile, but peers are
invisible and stacking is possible; a rejected attempt or a negative
Bernoulli draw leaves the enemy stationary, and the map, the enemy count
and all other state are unchanged. -/
theorem update_enemies_spec (g : Game) (choice : Nat → Bool × Fin 4)
    (i : Nat) (d : Position) (hi : i < g.level.enemies.length) :
    (g.update_enemies choice).level.enemies.length = g.level.enemies.length ∧
    (g.update_enemies choice).level.map = g.level.map ∧
    (g.update_enemies choice).level.player_start = g.level.player_start ∧
    (g.update_enemies choice).boss_health = g.boss_health ∧
    ((choice i).1 = false →
      (g.update_enemies choice).level.enemies.getD i d = g.level.enemies.getD i d) ∧
    ((choice i).1 = true →
      g.detachEnemies.check_collision
          (enemyCandidate (g.level.enemies.getD i d) (choice i).2) = CollisionType.None →
      (g.update_enemies choice).level.enemies.getD i d =
        enemyCandidate (g.level.enemies.getD i d) (choice i).2) ∧
    ((choice i).1 = true →
      g.detachEnemies.check_collision
          (enemyCandidate (g.level.enemies.getD i d) (choice i).2) ≠ CollisionType.None →
      (g.update_enemies choice).level.enemies.getD i d = g.level.enemies.getD i d) := by
  have hget : (g.update_enemies choice).level.enemies.getD i d =
      enemyStep g.detachEnemies (choice i) (g.level.enemies.getD i d) := by
    show (updateEnemiesList g.detachEnemies choice 0 g.level.enemies).getD i d = _
    rw [updateEnemiesList_getD g.detachEnemies choice g.level.enemies 0 i d hi]
    rw [show 0 + i = i by omega]
  refine ⟨updateEnemiesList_length g.detachEnemies choice g.level.enemies 0,
          rfl, rfl, rfl, ?_, ?_, ?_⟩
  · intro hb
    rw [hget]
    unfold enemyStep
    rw [hb]
    simp
  · intro hb hcoll
    rw [hget]
    unfold enemyStep
    rw [hb]
    simp only [if_true]
    rw [if_pos hcoll]
  · intro hb hcoll
    rw [hget]
    unfold enemyStep
    rw [hb]
    simp only [if_true]
    rw [if_neg hcoll]

/-- Witness for claim C6 (amended) on the two-enemy level: enemy 0's
accepted step onto the detached-empty cell `(0, 1)`, and enemy 1's
rejected attempt at the out-of-bounds cell `(0, 2)`. -/
theorem update_enemies_spec_witness :
    (gEn.update_enemies choiceRight).level.enemies.getD 0 ⟨9, 9⟩ =
      enemyCandidate (gEn.level.enemies.getD 0 ⟨9, 9⟩) (choiceRight 0).2 ∧
    (gEn.update_enemies choiceRight).level.enemies.getD 1 ⟨9, 9⟩ =
      gEn.level.enemies.getD 1 ⟨9, 9⟩ :=
  ⟨(update_enemies_spec gEn choiceRight 0 ⟨9, 9⟩ (by decide)).2.2.2.2.2.1
     (by decide) (by decide),
   (update_enemies_spec gEn choiceRight 1 ⟨9, 9⟩ (by decide)).2.2.2.2.2.2
     (by decide) (by decide)⟩

/-- Claim C7: whenever the actor has a pending move whose target
classifies as `Interactive`, resolving the interaction always clears the
pending move (no resolution applies none of the dispositions, and no
partial application is possible), the resulting position is the pending
target (commit), the old position (cancel) or the level spawn (reset),
and when those three positions are pairwise distinct exactly one of the
three dispositions is realised. -/
theorem interaction_disposition (g : Game) (pl : Player) (p : Position)
    (it : InteractiveType)
    (hpend : pl.pending_move = some p)
    (hcol : g.check_collision p = CollisionType.Interactive it) :
    (g.handle_interaction pl).2.pending_move = none ∧
    ((g.handle_interaction pl).2.pos = p ∨ (g.handle_interaction pl).2.pos = pl.pos ∨
     (g.handle_interaction pl).2.pos = g.level.player_start) ∧
    (p ≠ pl.pos → p ≠ g.level.player_start → pl.pos ≠ g.level.player_start →
      (((g.handle_interaction pl).2.pos = p ∧ (g.handle_interaction pl).2.pos ≠ pl.pos ∧
        (g.handle_interaction pl).2.pos ≠ g.level.player_start) ∨
       ((g.handle_interaction pl).2.pos ≠ p ∧ (g.handle_interaction pl).2.pos = pl.pos ∧
        (g.handle_interaction pl).2.pos ≠ g.level.player_start) ∨
       ((g.handle_interaction pl).2.pos ≠ p ∧ (g.handle_interaction pl).2.pos ≠ pl.pos ∧
        (g.handle_interaction pl).2.pos = g.level.player_start))) := by
  have main : (g.handle_interaction pl).2.pending_move = none ∧
      ((g.handle_interaction pl).2.pos = p ∨ (g.handle_interaction pl).2.pos = pl.pos ∨
       (g.handle_interaction pl).2.pos = g.level.player_start) := by
    simp only [Game.handle_interaction, hpend, hcol]
    cases it with
    | Item item =>
      simp only [Game.handle_item_pickup]
      exact ⟨commit_move_pending _,
             Or.inl (commit_move_pos_of_pending _ p (by rw [add_item_pending]; exact hpend))⟩
    | WoodLog =>
      by_cases haxe : pl.has_item ItemType.Axe = true
      · simp only [Game.handle_wood_log, haxe, if_true]
        split
        · exact ⟨rfl, Or.inr (Or.inl rfl)⟩
        · exact ⟨commit_move_pending _,
                 Or.inl (commit_move_pos_of_pending _ p (by rw [remove_item_pending]; exact hpend))⟩
      · rw [Bool.not_eq_true] at haxe
        simp only [Game.handle_wood_log, haxe, Bool.false_eq_true, if_false]
        exact ⟨rfl, Or.inr (Or.inl rfl)⟩
    | Door =>
      by_cases hkey : pl.has_item ItemType.Key = true
      · simp only [Game.handle_door, hkey, if_true]
        exact ⟨rfl, Or.inr (Or.inl rfl)⟩
      · rw [Bool.not_eq_true] at hkey
        simp only [Game.handle_door, hkey, Bool.false_eq_true, if_false]
        exact ⟨rfl, Or.inr (Or.inl rfl)⟩
    | Cottage =>
      simp only [Game.handle_cottage]
      exact ⟨rfl, Or.inr (Or.inl rfl)⟩
    | Rock =>
      by_cases hbomb : pl.has_item ItemType.Bomb = true
      · simp only [Game.handle_rock, hbomb, if_true]
        exact ⟨rfl, Or.inr (Or.inl rfl)⟩
      · rw [Bool.not_eq_true] at hbomb
        simp only [Game.handle_rock, hbomb, Bool.false_eq_true, if_false]
        exact ⟨rfl, Or.inr (Or.inl rfl)⟩
    | HookStart =>
      by_cases hhk : pl.has_item ItemType.Hook = true
      · simp only [Game.handle_hook_start, hhk, if_true]
        exact ⟨rfl, Or.inr (Or.inl rfl)⟩
      · rw [Bool.not_eq_true] at hhk
        simp only [Game.handle_hook_start, hhk, Bool.false_eq_true, if_false]
        exact ⟨rfl, Or.inr (Or.inl rfl)⟩
    | CrystalA =>
      have htile := tile_of_interactive_crystalA g p hcol
      simp only [Game.handle_crystal, htile, crystalFlame]
      cases hfind : g.find_tile TileType.FlameA <;>
        simp only [hfind] <;>
        exact ⟨rfl, Or.inr (Or.inl (by split <;> rfl))⟩
    | CrystalB =>
      have htile := tile_of_interactive_crystalB g p hcol
      simp only [Game.handle_crystal, htile, crystalFlame]
      cases hfind : g.find_tile TileType.FlameB <;>
        simp only [hfind] <;>
        exact ⟨rfl, Or.inr (Or.inl (by split <;> rfl))⟩
    | CrystalC =>
      have htile := tile_of_interactive_crystalC g p hcol
      simp only [Game.handle_crystal, htile, crystalFlame]
      cases hfind : g.find_tile TileType.FlameC <;>
        simp only [hfind] <;>
        exact ⟨rfl, Or.inr (Or.inl (by split <;> rfl))⟩
    | Enemy =>
      by_cases hsw : pl.has_item ItemType.Sword = true
      · simp only [Game.handle_enemy, hsw, if_true]
        exact ⟨commit_move_pending _,
               Or.inl (commit_move_pos_of_pending _ p (by rw [remove_item_pending]; exact hpend))⟩
      · rw [Bool.not_eq_true] at hsw
        simp only [Game.handle_enemy, hsw, Bool.false_eq_true, if_false]
        exact ⟨rfl, Or.inr (Or.inr rfl)⟩
    | Oni =>
      by_cases hwc : pl.has_item ItemType.WindChime = true
      · simp only [Game.handle_oni, hwc, if_true]
        refine ⟨commit_move_pending _, Or.inl (commit_move_pos_of_pending _ p ?_)⟩
        rw [add_item_pending, remove_item_pending]
        exact hpend
      · rw [Bool.not_eq_true] at hwc
        simp only [Game.handle_oni, hwc, Bool.false_eq_true, if_false]
        exact ⟨rfl, Or.inr (Or.inr rfl)⟩
    | Boss =>
      by_cases hds : pl.has_item ItemType.DragonSword = true
      · simp only [Game.handle_boss, hds, if_true]
        by_cases h0 : 0 < g.boss_health
        · rw [if_pos h0]
          by_cases hz : g.boss_health - 1 = 0
          · rw [if_pos hz]
            exact ⟨commit_move_pending _, Or.inl (commit_move_pos_of_pending _ p hpend)⟩
          · rw [if_neg hz]
            exact ⟨rfl, Or.inr (Or.inr rfl)⟩
        · rw [if_neg h0]
          exact ⟨rfl, Or.inr (Or.inr rfl)⟩
      · rw [Bool.not_eq_true] at hds
        simp only [Game.handle_boss, hds, Bool.false_eq_true, if_false]
        exact ⟨rfl, Or.inr (Or.inr rfl)⟩
  refine ⟨main.1, main.2, ?_⟩
  intro h1 h2 h3
  rcases main.2 with h | h | h
  · exact Or.inl ⟨h, by rw [h]; exact h1, by rw [h]; exact h2⟩
  · exact Or.inr (Or.inl ⟨by rw [h]; exact fun hc => h1 hc.symm, h,
      by rw [h]; exact h3⟩)
  · exact Or.inr (Or.inr ⟨by rw [h]; exact fun hc => h2 hc.symm, by rw [h]; exact fun hc => h3 hc.symm, h⟩)

/-- Witness for claim C7: a key pickup resolution commits the pending
move and clears it. -/
theorem interaction_disposition_witness :
    (gKey.handle_interaction plKey).2.pending_move = none ∧
    ((gKey.handle_interaction plKey).2.pos = ⟨0, 1⟩ ∨
     (gKey.handle_interaction plKey).2.pos = plKey.pos ∨
     (gKey.handle_interaction plKey).2.pos = gKey.level.player_start) :=
  ⟨(interaction_disposition gKey plKey ⟨0, 1⟩ (InteractiveType.Item ItemType.Key)
      rfl (by decide)).1,
   (interaction_disposition gKey plKey ⟨0, 1⟩ (InteractiveType.Item ItemType.Key)
      rfl (by decide)).2.1⟩
